import Mathlib

/-!
Verification development for the in-browser cinematic slideshow renderer
(VideoCanvas component and its VideoStudio host page).

The numeric core of the component is shallowly embedded over the rationals:
every JavaScript number that the claims reason about is modelled as a value
of type ℚ, and every fallible access (an out-of-range array index in
JavaScript evaluates to undefined and a subsequent field access throws) is
modelled with an explicit fault value.
-/

/-- Scene descriptor, mirroring the SceneConfig type of the component:
title, subtitle, description, image URI, start offset and duration in
seconds. -/
structure SceneConfig where
  title : String
  subtitle : String
  description : String
  image : String
  start : ℚ
  duration : ℚ
deriving DecidableEq

/-- Render status enumeration of the component. -/
inductive RenderStatus where
  | idle
  | loadingAssets
  | rendering
  | complete
  | error
deriving DecidableEq

/-- The clamp helper of the component: Math.min(Math.max(value, lo), hi). -/
def clamp (value lo hi : ℚ) : ℚ := min (max value lo) hi

/-- The easeInOutCubic helper of the component:
t < 0.5 then 4*t*t*t else 1 - Math.pow(-2*t+2, 3)/2. -/
def easeInOutCubic (t : ℚ) : ℚ :=
  if t < 0.5 then 4 * t * t * t else 1 - (-2 * t + 2) ^ 3 / 2

/-- Sum of the duration fields of a scene list; the spec calls this the
total timeline duration. -/
def sumDur (scenes : List SceneConfig) : ℚ :=
  (scenes.map SceneConfig.duration).sum

/-- Cumulative start offset of scene k: the sum of the durations of the
scenes before it, recomputed from duration alone exactly as the
scene-selection loop of drawFrame accumulates them. -/
def cumStart (scenes : List SceneConfig) (k : ℕ) : ℚ :=
  sumDur (scenes.take k)

/-- The scene-selection loop of drawFrame. The loop walks the scene list
keeping the running cumulative offset; it stops at the first scene whose
window contains the elapsed time and otherwise falls through with the
initial index scenes.length - 1 (an Int, since on an empty list the
JavaScript value is -1) and the fully accumulated offset. -/
def findSceneAux (elapsedSeconds : ℚ) (fallbackIndex : ℤ) :
    List SceneConfig → ℤ → ℚ → ℤ × ℚ
  | [], _, accumulated => (fallbackIndex, accumulated)
  | scene :: rest, i, accumulated =>
    if accumulated ≤ elapsedSeconds ∧ elapsedSeconds < accumulated + scene.duration
    then (i, accumulated)
    else findSceneAux elapsedSeconds fallbackIndex rest (i + 1) (accumulated + scene.duration)

/-- Timeline resolver: the scene-selection loop of drawFrame with its
initial state sceneIndex = scenes.length - 1, accumulated = 0. Returns the
selected index together with the cumulative start offset left in the
accumulated variable at the break. -/
def findScene (scenes : List SceneConfig) (elapsedSeconds : ℚ) : ℤ × ℚ :=
  findSceneAux elapsedSeconds ((scenes.length : ℤ) - 1) scenes 0 0

/-- JavaScript array indexing scenes[i]: undefined (none) when the index is
out of range, in particular when i = -1 on an empty scene list. -/
def sceneAt (scenes : List SceneConfig) (i : ℤ) : Option SceneConfig :=
  if 0 ≤ i then scenes.get? i.toNat else none

/-- The fade window of drawFrame: Math.min(0.75, scene.duration / 3). -/
def fadeWindowOf (duration : ℚ) : ℚ := min 0.75 (duration / 3)

/-- The text opacity computed by drawFrame: the minimum of the fade-in ramp
clamp(sceneElapsed / fadeWindow, 0, 1) and the fade-out ramp
clamp((duration - sceneElapsed) / fadeWindow, 0, 1). -/
def textOpacity (duration sceneElapsed : ℚ) : ℚ :=
  min (clamp (sceneElapsed / fadeWindowOf duration) 0 1)
      (clamp ((duration - sceneElapsed) / fadeWindowOf duration) 0 1)

/-- The zoom factor computed by drawFrame: 1 + 0.06 * easeInOutCubic of the
scene progress. -/
def zoomOf (sceneProgress : ℚ) : ℚ := 1 + 0.06 * easeInOutCubic sceneProgress

/-- The elapsed-seconds readout drawn next to the progress bar:
Math.round(progress * 30), with the literal constant 30. -/
def secondsReadout (progress : ℚ) : ℤ := round (progress * 30)

/-- The per-frame quantities computed by drawFrame once a scene has been
resolved. -/
structure DrawnFrame where
  sceneIndex : ℤ
  sceneElapsed : ℚ
  sceneProgress : ℚ
  zoom : ℚ
  textOpacity : ℚ
  secondsReadout : ℤ
deriving DecidableEq

/-- Result of one drawFrame call: completion was signalled via the
onComplete option and the function returned early; or a frame was drawn; or
the scene lookup evaluated to undefined and the subsequent field access
threw (fault). -/
inductive FrameResult where
  | completed
  | drawn (frame : DrawnFrame)
  | fault
deriving DecidableEq

/-- Observable outcome of one drawFrame call: the progress value passed to
notifyProgress (which happens first, before the completion check), and the
result. -/
structure FrameOutcome where
  notifiedProgress : ℚ
  result : FrameResult
deriving DecidableEq

/-- The drawFrame entry point of the component, lines 105-204 of the
source. Purely numeric drawing state is retained (scene selection, zoom,
text opacity, seconds readout); pixel-pushing calls on the canvas context
are side effects outside the model. The completion check against
duration * 1000 is performed before the scene-selection loop runs, so a
completed result is produced without any scene access. -/
def drawFrame (scenes : List SceneConfig) (duration : ℚ) (elapsedMs : ℚ) :
    FrameOutcome :=
  let totalDurationMs := duration * 1000
  let progress := clamp (elapsedMs / totalDurationMs) 0 1
  { notifiedProgress := progress
    result :=
      if totalDurationMs ≤ elapsedMs then FrameResult.completed
      else
        let elapsedSeconds := elapsedMs / 1000
        let r := findScene scenes elapsedSeconds
        match sceneAt scenes r.1 with
        | none => FrameResult.fault
        | some scene =>
          let sceneElapsed := elapsedSeconds - r.2
          let sceneProgress := clamp (sceneElapsed / scene.duration) 0 1
          FrameResult.drawn
            { sceneIndex := r.1
              sceneElapsed := sceneElapsed
              sceneProgress := sceneProgress
              zoom := zoomOf sceneProgress
              textOpacity := textOpacity scene.duration sceneElapsed
              secondsReadout := secondsReadout progress } }

/-- The scene list configured by the VideoStudio page: five scenes of six
seconds each, total thirty seconds. -/
def SCENES : List SceneConfig :=
  [ { title := "Sunrise at Burj Khalifa"
      subtitle := "Witness the city ignite in gold from the tallest tower on Earth."
      description := "Capture breathtaking vistas as dawn paints the Dubai skyline in amber hues."
      image := "/assets/burj-khalifa.jpg"
      start := 0
      duration := 6 },
    { title := "Arabian Desert Dunes"
      subtitle := "Ride the winds across endless dunes bathed in desert light."
      description := "Feel the adrenaline of a desert safari, camel treks, and sandboarding adventures."
      image := "/assets/desert-safari.jpg"
      start := 6
      duration := 6 },
    { title := "Dubai Creek Heritage"
      subtitle := "Sail past souks and wind towers where tradition meets modern flair."
      description := "Glide along the creek on an abra as spices and perfumes fill the evening air."
      image := "/assets/dubai-creek.jpg"
      start := 12
      duration := 6 },
    { title := "Iconic Palm Jumeirah"
      subtitle := "Discover man-made marvels framed by turquoise Arabian Gulf waters."
      description := "Luxury resorts, skydiving thrills, and oceanside dining define the Palm experience."
      image := "/assets/palm-jumeirah.jpg"
      start := 18
      duration := 6 },
    { title := "Dubai Marina Nights"
      subtitle := "Immerse yourself in neon reflections and waterfront glamour."
      description := "Indulge in rooftop lounges, yacht cruises, and Michelin-star cuisine after dark."
      image := "/assets/dubai-marina.jpg"
      start := 24
      duration := 6 } ]

/-- Mutable state of the playback scheduler held in the component refs and
callbacks: the pending animation-frame handle (animationRef), the last
status notified, the last progress value notified, the number of times the
onComplete callback passed to startAnimation has been invoked, and the
start timestamp (startTimeRef). -/
structure TickState where
  animationHandle : Option ℕ
  status : RenderStatus
  lastNotifiedProgress : Option ℚ
  onCompleteCalls : ℕ
  startTime : ℚ
deriving DecidableEq

/-- The cancelAnimation callback: cancels the pending animation-frame
request, if any, and clears the handle. -/
def cancelAnimation (st : TickState) : TickState :=
  ⟨none, st.status, st.lastNotifiedProgress, st.onCompleteCalls, st.startTime⟩

/-- The opening section of startAnimation before the first tick is scheduled:
cancelAnimation, reset startTimeRef to the current time, notifyProgress 0,
notifyStatus rendering, then request the first animation frame, storing its
handle. -/
def startAnimation (st : TickState) (now : ℚ) (newHandle : ℕ) : TickState :=
  let st1 := cancelAnimation st
  ⟨some newHandle, RenderStatus.rendering, some 0, st1.onCompleteCalls, now⟩

/-- One firing of the tick closure of startAnimation at a given elapsed
time. The closure returns immediately if the canvas ref is gone. Otherwise
it calls drawFrame; the onComplete option passed to drawFrame invokes the
outer onComplete callback, calls cancelAnimation, notifies status complete
and progress 1. After drawFrame returns, the closure unconditionally
executes animationRef.current = requestAnimationFrame(tick), storing the
fresh handle - also on the tick in which completion was just signalled. A
fault inside drawFrame propagates as an exception, skipping that final
request. -/
def tick (scenes : List SceneConfig) (duration : ℚ) (canvasPresent : Bool)
    (st : TickState) (elapsedMs : ℚ) (newHandle : ℕ) : TickState :=
  if canvasPresent = false then st
  else
    let out := drawFrame scenes duration elapsedMs
    match out.result with
    | FrameResult.fault =>
      ⟨st.animationHandle, st.status, some out.notifiedProgress,
        st.onCompleteCalls, st.startTime⟩
    | FrameResult.completed =>
      ⟨some newHandle, RenderStatus.complete, some 1,
        st.onCompleteCalls + 1, st.startTime⟩
    | FrameResult.drawn _ =>
      ⟨some newHandle, st.status, some out.notifiedProgress,
        st.onCompleteCalls, st.startTime⟩

/-- The guard sequence at the head of renderVideo. The source checks, in
order: canvasRef.current is present, MediaRecorder is supported, and (first
line inside the try block) a 2d context is available. It consults neither
the scene list nor any in-flight flag; both are carried here as arguments
so that their irrelevance is part of the statement, and both are unused
exactly because the source reads neither. -/
def renderVideoGuard (scenes : List SceneConfig)
    (canvasPresent mediaSupported ctxOk inFlight : Bool) : Except String Unit :=
  if canvasPresent = false then Except.error ("Canvas is not ready yet.")
  else if mediaSupported = false then
    Except.error ("MediaRecorder API is not supported in this browser.")
  else if ctxOk = false then Except.error ("Unable to access canvas context.")
  else Except.ok ()

/-- Observable outcome of one renderVideo invocation on its two error
channels: the settled promise, the list of messages passed to the onError
callback, and the status notifications issued by the guard and catch paths
of renderVideo itself. -/
structure RenderOutcome where
  promise : Except String Unit
  onErrorCalls : List String
  statusEvents : List RenderStatus

/-- Channel behaviour of renderVideo. The two leading guards throw before
the try block is entered, so those rejections reach neither notifyStatus
nor onError. Everything thrown inside the try block (context unavailable,
asset load failure, recorder error), abstracted here as tryOutcome, is
routed through the catch block: notifyStatus error, onError message, and a
rethrow that rejects the promise. -/
def renderVideoRun (canvasPresent mediaSupported : Bool)
    (tryOutcome : Except String Unit) : RenderOutcome :=
  if canvasPresent = false then
    ⟨Except.error ("Canvas is not ready yet."), [], []⟩
  else if mediaSupported = false then
    ⟨Except.error ("MediaRecorder API is not supported in this browser."), [], []⟩
  else
    match tryOutcome with
    | Except.ok _ => ⟨Except.ok (), [], []⟩
    | Except.error msg => ⟨Except.error msg, [msg], [RenderStatus.error]⟩

/-- JavaScript String.prototype.split with separator a single space:
splits at every space character, keeping empty fragments. -/
def splitSpacesAux : List Char → List Char → List String
  | [], cur => [String.mk cur.reverse]
  | c :: rest, cur =>
    if c = ' ' then String.mk cur.reverse :: splitSpacesAux rest []
    else splitSpacesAux rest (c :: cur)

/-- The words array of wrapText: text.split(" "). -/
def splitSpaces (text : String) : List String := splitSpacesAux text.toList []

/-- JavaScript String.prototype.trim on the character list: strip leading
and trailing whitespace. -/
def trimChars (cs : List Char) : List Char :=
  ((cs.dropWhile Char.isWhitespace).reverse.dropWhile Char.isWhitespace).reverse

/-- JavaScript String.prototype.trim. -/
def trimStr (s : String) : String := String.mk (trimChars s.toList)

/-- The string value of the line accumulator of wrapText when it holds the
given words: each appended word is followed by one space, so the
accumulator is word1 space word2 space ... space. -/
def lineStr (line : List String) : String :=
  line.foldl (fun acc w => acc ++ w ++ " ") ""

/-- The loop of wrapText. The line accumulator is represented by the list
of words it holds (lineStr recovers the string value); n is the loop index
into the words array. Each step forms testLine = line + words[n] + " ";
when its measured width exceeds maxWidth and n > 0, the current line is
flushed and a new line starts with words[n], otherwise testLine becomes the
line. After the loop the remaining line is always flushed. -/
def wrapTextAux (measure : String → ℚ) (maxWidth : ℚ) :
    List String → ℕ → List String → List (List String)
  | [], _, line => [line]
  | w :: rest, n, line =>
    if measure (lineStr (line ++ [w])) > maxWidth ∧ n > 0 then
      line :: wrapTextAux measure maxWidth rest (n + 1) [w]
    else
      wrapTextAux measure maxWidth rest (n + 1) (line ++ [w])

/-- wrapText at the level of word lists: the lines produced by the loop,
each given as the list of words it holds. -/
def wrapWords (measure : String → ℚ) (maxWidth : ℚ) (words : List String) :
    List (List String) :=
  wrapTextAux measure maxWidth words 0 []

/-- The wrapText function of the source: split the text on spaces, run the
greedy loop, and draw each flushed line trimmed. The context measureText
call is the measure parameter. -/
def wrapText (measure : String → ℚ) (text : String) (maxWidth : ℚ) :
    List String :=
  (wrapWords measure maxWidth (splitSpaces text)).map
    (fun line => trimStr (lineStr line))

/-- A text-measure function used to probe wrapText: the two-word string has
a large width while each single word and every string carrying a trailing
space is narrow. Canvas measureText is under no obligation to be monotone
under trimming, and wrapText only ever measures strings that end in a
space. -/
def cexMeasure (s : String) : ℚ :=
  if s = "a b" then 1000 else if s = "a" ∨ s = "b" then 100 else 0


theorem sumDur_nil : sumDur [] = 0 := rfl

theorem sumDur_cons (s : SceneConfig) (l : List SceneConfig) :
    sumDur (s :: l) = s.duration + sumDur l := by
  simp [sumDur]

theorem cumStart_zero (l : List SceneConfig) : cumStart l 0 = 0 := rfl

theorem cumStart_cons_succ (s : SceneConfig) (l : List SceneConfig) (k : ℕ) :
    cumStart (s :: l) (k + 1) = s.duration + cumStart l k := by
  simp [cumStart, sumDur]

theorem cumStart_succ :
    ∀ (l : List SceneConfig) (j : ℕ) (hj : j < l.length),
      cumStart l (j + 1) = cumStart l j + (l.get ⟨j, hj⟩).duration := by
  intro l
  induction l with
  | nil => intro j hj; exact absurd hj (Nat.not_lt_zero j)
  | cons s rest ih =>
    intro j hj
    cases j with
    | zero => simp [cumStart_cons_succ, cumStart_zero]
    | succ j =>
      have hj' : j < rest.length := Nat.lt_of_succ_lt_succ hj
      rw [cumStart_cons_succ, cumStart_cons_succ, ih j hj']
      simp [List.get]
      ring

theorem cumStart_mono :
    ∀ (l : List SceneConfig), (∀ s ∈ l, 0 ≤ s.duration) →
      ∀ j k : ℕ, j ≤ k → cumStart l j ≤ cumStart l k := by
  intro l
  induction l with
  | nil => intro _ j k _; simp [cumStart, sumDur]
  | cons s rest ih =>
    intro hpos j k hjk
    cases j with
    | zero =>
      cases k with
      | zero => exact le_refl _
      | succ k =>
        rw [cumStart_zero, cumStart_cons_succ]
        have h1 : 0 ≤ s.duration := hpos s (List.mem_cons_self s rest)
        have h2 : 0 ≤ cumStart rest k := by
          have := ih (fun t ht => hpos t (List.mem_cons_of_mem s ht)) 0 k (Nat.zero_le k)
          rw [cumStart_zero] at this
          exact this
        linarith
    | succ j =>
      cases k with
      | zero => exact absurd hjk (by omega)
      | succ k =>
        rw [cumStart_cons_succ, cumStart_cons_succ]
        have := ih (fun t ht => hpos t (List.mem_cons_of_mem s ht)) j k (Nat.le_of_succ_le_succ hjk)
        linarith

theorem findSceneAux_spec (t : ℚ) (fb : ℤ) :
    ∀ (l : List SceneConfig) (i : ℤ) (acc : ℚ),
      acc ≤ t → t < acc + sumDur l →
      ∃ k : ℕ, ∃ hk : k < l.length,
        findSceneAux t fb l i acc = (i + k, acc + cumStart l k) ∧
        acc + cumStart l k ≤ t ∧
        t < acc + cumStart l k + (l.get ⟨k, hk⟩).duration := by
  intro l
  induction l with
  | nil =>
    intro i acc hle hlt
    rw [sumDur_nil, add_zero] at hlt
    exact absurd hle (not_le.mpr hlt)
  | cons s rest ih =>
    intro i acc hle hlt
    by_cases hwin : acc ≤ t ∧ t < acc + s.duration
    · refine ⟨0, Nat.succ_pos rest.length, ?_, ?_, ?_⟩
      · simp [findSceneAux, hwin, cumStart_zero]
      · rw [cumStart_zero]; simpa using hwin.1
      · rw [cumStart_zero]; simpa using hwin.2
    · have hge : acc + s.duration ≤ t := by
        rcases not_and_or.mp hwin with h | h
        · exact absurd hle h
        · exact not_lt.mp h
      have hlt' : t < acc + s.duration + sumDur rest := by
        rw [sumDur_cons] at hlt
        linarith
      obtain ⟨k, hk, heq, hlo, hhi⟩ := ih (i + 1) (acc + s.duration) hge hlt'
      refine ⟨k + 1, Nat.succ_lt_succ hk, ?_, ?_, ?_⟩
      · have hstep : findSceneAux t fb (s :: rest) i acc =
            findSceneAux t fb rest (i + 1) (acc + s.duration) := by
          simp [findSceneAux, hwin]
        rw [hstep, heq, cumStart_cons_succ]
        simp only [Prod.mk.injEq]
        constructor
        · push_cast; ring
        · ring
      · rw [cumStart_cons_succ]; linarith
      · rw [cumStart_cons_succ]
        have hget : (s :: rest).get ⟨k + 1, Nat.succ_lt_succ hk⟩ = rest.get ⟨k, hk⟩ := rfl
        rw [hget]
        linarith

/-- Claim C1: for every non-empty scene list with positive durations and
every elapsed time t with 0 le t lt total, the scene-selection loop of
drawFrame returns the unique scene index whose cumulative window
[cumStart, cumStart + duration) contains t, with the accumulated variable
equal to that cumulative start, so that scene-local elapsed is
t - cumStart. -/
theorem timeline_resolver_unique_window
    (scenes : List SceneConfig) (t : ℚ)
    (hne : scenes ≠ [])
    (hpos : ∀ s ∈ scenes, 0 < s.duration)
    (h0 : 0 ≤ t) (hlt : t < sumDur scenes) :
    ∃ k : ℕ, ∃ hk : k < scenes.length,
      findScene scenes t = ((k : ℤ), cumStart scenes k) ∧
      cumStart scenes k ≤ t ∧
      t < cumStart scenes k + (scenes.get ⟨k, hk⟩).duration ∧
      t - (findScene scenes t).2 = t - cumStart scenes k ∧
      ∀ j : ℕ, ∀ hj : j < scenes.length,
        cumStart scenes j ≤ t →
        t < cumStart scenes j + (scenes.get ⟨j, hj⟩).duration → j = k := by
  obtain ⟨k, hk, heq, hlo, hhi⟩ :=
    findSceneAux_spec t ((scenes.length : ℤ) - 1) scenes 0 0 h0
      (by rw [zero_add]; exact hlt)
  simp only [zero_add] at heq hlo hhi
  have hfind : findScene scenes t = ((k : ℤ), cumStart scenes k) := by
    rw [findScene, heq]
  have hnn : ∀ s ∈ scenes, 0 ≤ s.duration := fun s hs => le_of_lt (hpos s hs)
  refine ⟨k, hk, hfind, hlo, hhi, by rw [hfind], ?_⟩
  intro j hj hjlo hjhi
  rcases lt_trichotomy j k with hjk | hjk | hjk
  · exfalso
    have h1 : cumStart scenes (j + 1) ≤ cumStart scenes k :=
      cumStart_mono scenes hnn (j + 1) k hjk
    rw [cumStart_succ scenes j hj] at h1
    linarith
  · exact hjk
  · exfalso
    have h1 : cumStart scenes (k + 1) ≤ cumStart scenes j :=
      cumStart_mono scenes hnn (k + 1) j hjk
    rw [cumStart_succ scenes k hk] at h1
    linarith

/-- Witness for C1: with the five configured scenes of six seconds each and
elapsed exactly 6 seconds, the resolver picks scene index 1 with cumulative
start 6 and scene-local elapsed 0. -/
theorem timeline_resolver_witness :
    (∃ k : ℕ, ∃ hk : k < SCENES.length,
      findScene SCENES 6 = ((k : ℤ), cumStart SCENES k) ∧
      cumStart SCENES k ≤ 6 ∧
      (6:ℚ) < cumStart SCENES k + (SCENES.get ⟨k, hk⟩).duration ∧
      (6:ℚ) - (findScene SCENES 6).2 = 6 - cumStart SCENES k ∧
      ∀ j : ℕ, ∀ hj : j < SCENES.length,
        cumStart SCENES j ≤ 6 →
        (6:ℚ) < cumStart SCENES j + (SCENES.get ⟨j, hj⟩).duration → j = k) ∧
    findScene SCENES 6 = (1, 6) ∧ (6:ℚ) - (findScene SCENES 6).2 = 0 := by
  refine ⟨timeline_resolver_unique_window SCENES 6 (by simp [SCENES]) ?_ (by norm_num)
      (by norm_num [sumDur, SCENES]), ?_, ?_⟩
  · intro s hs
    simp only [SCENES, List.mem_cons, List.mem_singleton] at hs
    rcases hs with h | h | h | h | h | h <;> first | (subst h; norm_num) | cases h
  · norm_num [findScene, findSceneAux, SCENES]
  · norm_num [findScene, findSceneAux, SCENES]

/-- Claim C2: whenever the elapsed time is at least the total timeline
duration (the sum of the scene durations, which the configuration equates
with the duration prop that drawFrame actually compares against), drawFrame
invokes its onComplete option and returns before the scene-selection loop:
the completed result is produced for every scene list, including an empty
or inconsistent one, showing no scene is resolved or drawn. -/
theorem drawFrame_completion_first
    (scenes : List SceneConfig) (duration elapsedMs : ℚ)
    (hsum : sumDur scenes = duration)
    (h : sumDur scenes * 1000 ≤ elapsedMs) :
    (drawFrame scenes duration elapsedMs).result = FrameResult.completed := by
  subst hsum
  simp only [drawFrame]
  rw [if_pos h]

/-- Witness for C2: with the five six-second scenes (total 30 s) and
elapsed exactly 30000 ms, drawFrame reports completion, not scene index 4. -/
theorem drawFrame_completion_witness :
    (drawFrame SCENES 30 30000).result = FrameResult.completed :=
  drawFrame_completion_first SCENES 30 30000 (by norm_num [sumDur, SCENES])
    (by norm_num [sumDur, SCENES])

/-- Claim C3 evaluated at the failing input: on the tick that reaches the
total duration, drawFrame signals completion, the onComplete callback runs,
status becomes complete and progress 1 is notified - but after drawFrame
returns, the tick closure still stores a fresh requestAnimationFrame
handle (here 7), so the scheduler has requested a further callback instead
of stopping. -/
theorem tick_requests_after_completion :
    tick SCENES 30 true ⟨none, RenderStatus.rendering, some 0, 0, 0⟩ 30000 7 =
      ⟨some 7, RenderStatus.complete, some 1, 1, 0⟩ := by
  norm_num [tick, drawFrame]

/-- Claim C4 counterexample: with the canvas present, MediaRecorder
supported and a context available, a renderVideo invocation issued while a
render is in flight (last argument true) passes the guard sequence and
proceeds; it is not rejected with any error. -/
theorem renderVideo_no_inflight_rejection :
    renderVideoGuard SCENES true true true true = Except.ok () := rfl

/-- Claim C4 amended: renderVideo performs no in-flight check - its guard
outcome is independent of whether a render is active, and under the
conditions in which a render can be in flight the second call proceeds;
moreover the second call disturbs the first, since startAnimation cancels
the pending frame request, replaces the handle and resets the start
timestamp. -/
theorem renderVideo_guard_ignores_inflight :
    (∀ (scenes : List SceneConfig) (c m x f g : Bool),
      renderVideoGuard scenes c m x f = renderVideoGuard scenes c m x g) ∧
    (∀ (scenes : List SceneConfig) (f : Bool),
      renderVideoGuard scenes true true true f = Except.ok ()) ∧
    (∀ (st : TickState) (now : ℚ) (h : ℕ),
      startAnimation st now h =
        ⟨some h, RenderStatus.rendering, some 0, st.onCompleteCalls, now⟩) :=
  ⟨fun _ _ _ _ _ _ => rfl, fun _ _ => rfl, fun _ _ _ => rfl⟩

/-- Claim C5 counterexample: with an empty scene list the renderVideo guard
sequence succeeds - no ConfigurationError exists anywhere in the code - and
the failure instead happens per-frame: drawFrame at 1000 ms faults, because
the loop leaves sceneIndex at -1 and the scene lookup is undefined. -/
theorem empty_scenes_no_config_error :
    renderVideoGuard [] true true true false = Except.ok () ∧
    (drawFrame [] 30 1000).result = FrameResult.fault :=
  ⟨rfl, by norm_num [drawFrame, findScene, findSceneAux, sceneAt]⟩

/-- Claim C5 amended: the code never validates the scene list (the guard
outcome does not depend on it), so an empty list is not rejected at session
start; instead every frame drawn before the configured duration elapses
faults at scene resolution, the failure being per-frame rather than at
invocation time. -/
theorem empty_scenes_per_frame_fault :
    (∀ (scenes : List SceneConfig) (c m x f : Bool),
      renderVideoGuard scenes c m x f = renderVideoGuard [] c m x f) ∧
    (∀ duration t : ℚ, 0 ≤ t → t < duration * 1000 →
      (drawFrame [] duration t).result = FrameResult.fault) := by
  constructor
  · intro scenes c m x f
    rfl
  · intro duration t h0 hlt
    simp only [drawFrame]
    rw [if_neg (not_le.mpr hlt)]
    rfl

/-- Witness for the amended C5: at duration 30 and elapsed 1000 ms the
empty-scene-list frame faults. -/
theorem empty_scenes_fault_witness :
    (drawFrame [] 30 1000).result = FrameResult.fault :=
  empty_scenes_per_frame_fault.2 30 1000 (by norm_num) (by norm_num)

/-- Claim C6 counterexample: when the canvas is not ready, renderVideo
rejects the promise with the canvas message but the onError callback is
never invoked and no error status is notified - the failure surfaces on one
channel only. -/
theorem canvas_error_single_channel :
    (renderVideoRun false true (Except.ok ())).promise =
      Except.error ("Canvas is not ready yet.") ∧
    (renderVideoRun false true (Except.ok ())).onErrorCalls = [] ∧
    (renderVideoRun false true (Except.ok ())).statusEvents = [] :=
  ⟨rfl, rfl, rfl⟩

/-- Claim C6 amended: every failure raised inside the try block of
renderVideo surfaces on both channels (the promise rejects with the message
and onError receives it, with a transition to error status), but the two
guards before the try block - canvas not ready and MediaRecorder
unsupported - reject the promise only, never invoking onError or notifying
error status. -/
theorem error_channels_split :
    (∀ msg : String, renderVideoRun true true (Except.error msg) =
      ⟨Except.error msg, [msg], [RenderStatus.error]⟩) ∧
    (∀ (m : Bool) (tryOutcome : Except String Unit),
      (renderVideoRun false m tryOutcome).promise =
        Except.error ("Canvas is not ready yet.") ∧
      (renderVideoRun false m tryOutcome).onErrorCalls = [] ∧
      (renderVideoRun false m tryOutcome).statusEvents = []) ∧
    (∀ tryOutcome : Except String Unit,
      (renderVideoRun true false tryOutcome).promise =
        Except.error ("MediaRecorder API is not supported in this browser.") ∧
      (renderVideoRun true false tryOutcome).onErrorCalls = [] ∧
      (renderVideoRun true false tryOutcome).statusEvents = []) :=
  ⟨fun _ => rfl, fun _ _ => ⟨rfl, rfl, rfl⟩, fun _ => ⟨rfl, rfl, rfl⟩⟩

theorem clamp01_nonneg (x : ℚ) : 0 ≤ clamp x 0 1 :=
  le_min (le_max_right x 0) zero_le_one

theorem clamp01_of_one_le {x : ℚ} (h : 1 ≤ x) : clamp x 0 1 = 1 := by
  unfold clamp
  rw [max_eq_left (le_trans zero_le_one h), min_eq_right h]

theorem clamp01_zero : clamp 0 0 1 = 0 := by
  unfold clamp
  norm_num

/-- Claim C7: for a scene of positive duration d with fade window
w = min(0.75, d/3), the text opacity equals the minimum of the fade-in
ramp clamp(sceneElapsed/w, 0, 1) and the fade-out ramp
clamp((d - sceneElapsed)/w, 0, 1); it is 0 at scene-local time 0 and at
scene-local time d, and equals 1 on [w, d - w] whenever d exceeds 2w. -/
theorem text_opacity_fades (d s : ℚ) (hd : 0 < d) :
    textOpacity d 0 = 0 ∧
    textOpacity d d = 0 ∧
    textOpacity d s =
      min (clamp (s / min 0.75 (d / 3)) 0 1)
          (clamp ((d - s) / min 0.75 (d / 3)) 0 1) ∧
    (2 * fadeWindowOf d < d → fadeWindowOf d ≤ s → s ≤ d - fadeWindowOf d →
      textOpacity d s = 1) := by
  have hw : 0 < fadeWindowOf d := lt_min (by norm_num) (by positivity)
  refine ⟨?_, ?_, rfl, ?_⟩
  · unfold textOpacity
    rw [zero_div, clamp01_zero]
    exact min_eq_left (clamp01_nonneg _)
  · unfold textOpacity
    rw [sub_self, zero_div, clamp01_zero]
    exact min_eq_right (clamp01_nonneg _)
  · intro h2w hws hsd
    unfold textOpacity
    have h1 : 1 ≤ s / fadeWindowOf d := (one_le_div hw).mpr hws
    have h2 : 1 ≤ (d - s) / fadeWindowOf d := (one_le_div hw).mpr (by linarith)
    rw [clamp01_of_one_le h1, clamp01_of_one_le h2, min_self]

/-- Witness for C7: a six-second scene has fade window 0.75; opacity is 0
at scene-local times 0 and 6 and is 1 at scene-local time 1. -/
theorem text_opacity_witness :
    textOpacity 6 0 = 0 ∧ textOpacity 6 6 = 0 ∧ textOpacity 6 1 = 1 :=
  ⟨(text_opacity_fades 6 1 (by norm_num)).1,
   (text_opacity_fades 6 1 (by norm_num)).2.1,
   (text_opacity_fades 6 1 (by norm_num)).2.2.2
     (by norm_num [fadeWindowOf, min_def])
     (by norm_num [fadeWindowOf, min_def])
     (by norm_num [fadeWindowOf, min_def])⟩

theorem easeInOutCubic_strict_increase :
    ∀ p q : ℚ, 0 ≤ p → p < q → q ≤ 1 → easeInOutCubic p < easeInOutCubic q := by
  intro p q hp hpq hq
  unfold easeInOutCubic
  by_cases h1 : p < 0.5 <;> by_cases h2 : q < 0.5
  · rw [if_pos h1, if_pos h2]
    have h3 : p ^ 3 < q ^ 3 := pow_lt_pow_left₀ hpq hp (by norm_num)
    nlinarith [h3]
  · rw [if_pos h1, if_neg h2]
    push_neg at h2
    have ha0 : 0 ≤ -2 * q + 2 := by linarith
    have ha1 : -2 * q + 2 ≤ 1 := by norm_num at h2; linarith
    have ha2 : (-2 * q + 2) ^ 2 ≤ 1 := by nlinarith
    have hcube : (-2 * q + 2) ^ 3 ≤ 1 := by nlinarith [mul_nonneg ha0 ha0]
    have hp2 : p < 0.5 := h1
    have hp3 : 4 * p * p * p < 1 / 2 := by norm_num at hp2; nlinarith [mul_nonneg hp hp]
    linarith
  · exfalso
    push_neg at h1
    norm_num at h1 h2
    linarith
  · rw [if_neg h1, if_neg h2]
    push_neg at h1 h2
    norm_num at h1 h2
    have hb0 : 0 ≤ -2 * q + 2 := by linarith
    have hab : -2 * q + 2 < -2 * p + 2 := by linarith
    have hcube : (-2 * q + 2) ^ 3 < (-2 * p + 2) ^ 3 :=
      pow_lt_pow_left₀ hab hb0 (by norm_num)
    linarith

/-- Claim C8: the zoom factor is 1 + 0.06 * easeInOutCubic(sceneProgress)
with the cubic ease-in-out; on [0, 1] it equals 1 at progress 0, equals
1.06 at progress 1, and is strictly increasing in between. -/
theorem zoom_endpoints_strict_mono :
    zoomOf 0 = 1 ∧ zoomOf 1 = 1.06 ∧
    (∀ p : ℚ, zoomOf p = 1 + 0.06 * easeInOutCubic p) ∧
    ∀ p q : ℚ, 0 ≤ p → p < q → q ≤ 1 → zoomOf p < zoomOf q := by
  refine ⟨by norm_num [zoomOf, easeInOutCubic], by norm_num [zoomOf, easeInOutCubic],
    fun p => rfl, ?_⟩
  intro p q hp hpq hq
  have := easeInOutCubic_strict_increase p q hp hpq hq
  unfold zoomOf
  have h6 : (0.06 : ℚ) * easeInOutCubic p < 0.06 * easeInOutCubic q := by
    apply mul_lt_mul_of_pos_left this
    norm_num
  linarith

/-- Witness for C8: the strict-increase part applied at progress 0 and 1,
together with the endpoint values. -/
theorem zoom_witness :
    zoomOf 0 = 1 ∧ zoomOf 1 = 1.06 ∧ zoomOf 0 < zoomOf 1 :=
  ⟨zoom_endpoints_strict_mono.1, zoom_endpoints_strict_mono.2.1,
   zoom_endpoints_strict_mono.2.2.2 0 1 le_rfl (by norm_num) le_rfl⟩

theorem wrapTextAux_join (measure : String → ℚ) (mw : ℚ) :
    ∀ (ws : List String) (n : ℕ) (line : List String),
      (wrapTextAux measure mw ws n line).flatten = line ++ ws := by
  intro ws
  induction ws with
  | nil =>
    intro n line
    simp [wrapTextAux]
  | cons w rest ih =>
    intro n line
    by_cases h : measure (lineStr (line ++ [w])) > mw ∧ n > 0
    · simp only [wrapTextAux, if_pos h, List.flatten_cons, ih]
      simp
    · simp only [wrapTextAux, if_neg h, ih]
      simp

theorem wrapTextAux_width (measure : String → ℚ) (mw : ℚ) :
    ∀ (ws : List String) (n : ℕ) (line : List String),
      (line ≠ [] → 0 < n) →
      (2 ≤ line.length → measure (lineStr line) ≤ mw) →
      ∀ L ∈ wrapTextAux measure mw ws n line, 2 ≤ L.length →
        measure (lineStr L) ≤ mw := by
  intro ws
  induction ws with
  | nil =>
    intro n line _ h2 L hL
    simp only [wrapTextAux, List.mem_singleton] at hL
    subst hL
    exact h2
  | cons w rest ih =>
    intro n line h1 h2 L hL
    by_cases h : measure (lineStr (line ++ [w])) > mw ∧ n > 0
    · simp only [wrapTextAux, if_pos h, List.mem_cons] at hL
      rcases hL with hLl | hLr
      · subst hLl
        exact h2
      · refine ih (n + 1) [w] (fun _ => Nat.succ_pos n) ?_ L hLr
        intro hlen
        simp at hlen
    · simp only [wrapTextAux, if_neg h] at hL
      refine ih (n + 1) (line ++ [w]) (fun _ => Nat.succ_pos n) ?_ L hL
      intro hlen
      have hne : line ≠ [] := by
        intro hnil
        subst hnil
        simp at hlen
      rcases not_and_or.mp h with hm | hn'
      · exact not_lt.mp hm
      · exact absurd (h1 hne) hn'

/-- Claim C9 amended: for every input text, maximum width, and text-measure
function under which trimming never increases the measured width, wrapText
accumulates whole words greedily, never splits a word (the concatenation of
the emitted lines is exactly the word sequence of the input, in order, so
every word is drawn), and every emitted line holding at least two words has
measured width at most the maximum - an emitted line that exceeds the
maximum is a single word standing alone. -/
theorem wrapText_greedy_sound
    (measure : String → ℚ) (maxWidth : ℚ) (text : String)
    (hmono : ∀ s : String, measure (trimStr s) ≤ measure s) :
    (wrapWords measure maxWidth (splitSpaces text)).flatten = splitSpaces text ∧
    ∀ L ∈ wrapWords measure maxWidth (splitSpaces text),
      2 ≤ L.length → measure (trimStr (lineStr L)) ≤ maxWidth := by
  constructor
  · simpa using wrapTextAux_join measure maxWidth (splitSpaces text) 0 []
  · intro L hL hlen
    have hbound := wrapTextAux_width measure maxWidth (splitSpaces text) 0 []
      (fun hne => absurd rfl hne) (fun habs => by simp at habs) L hL hlen
    exact le_trans (hmono (lineStr L)) hbound

/-- Claim C9 counterexample: under a text-measure function that is small on
every string wrapText actually measures (each one ends in a space) but
large on the trimmed two-word line, wrapText emits the line whose measured
width 1000 exceeds the maximum 500 even though every word of the input
measures 100, well within the maximum. -/
theorem wrapText_measure_counterexample :
    wrapText cexMeasure ("a b") 500 = ["a b"] ∧
    500 < cexMeasure ("a b") ∧
    cexMeasure ("a") ≤ 500 ∧ cexMeasure ("b") ≤ 500 := by decide

/-- Witness for the amended C9: the constant-zero measure trivially
satisfies the trim-monotonicity hypothesis; on the text a-space-b every
word is preserved and every multi-word line fits. -/
theorem wrapText_greedy_witness :
    (wrapWords (fun _ => (0:ℚ)) 5 (splitSpaces ("a b"))).flatten =
      splitSpaces ("a b") ∧
    ∀ L ∈ wrapWords (fun _ => (0:ℚ)) 5 (splitSpaces ("a b")),
      2 ≤ L.length → (fun _ => (0:ℚ)) (trimStr (lineStr L)) ≤ 5 :=
  wrapText_greedy_sound (fun _ => 0) 5 ("a b") (fun _ => le_rfl)

/-- Claim C10: on every drawn frame the elapsed-seconds readout equals
Math.round(overallProgress * 30) with the literal constant 30, and that
readout agrees with the actual elapsed whole seconds for all elapsed times
in range precisely when the configured total duration is 30 seconds. -/
theorem seconds_readout_literal_thirty :
    (∀ (scenes : List SceneConfig) (duration t : ℚ) (df : DrawnFrame),
      (drawFrame scenes duration t).result = FrameResult.drawn df →
      df.secondsReadout = round ((drawFrame scenes duration t).notifiedProgress * 30)) ∧
    (∀ total : ℚ, 0 < total →
      ((∀ s : ℚ, 0 ≤ s → s ≤ total →
          round (clamp (s / total) 0 1 * 30) = round s) ↔ total = 30)) := by
  constructor
  · intro scenes duration t df h
    simp only [drawFrame] at h ⊢
    by_cases hc : duration * 1000 ≤ t
    · rw [if_pos hc] at h
      simp at h
    · rw [if_neg hc] at h
      rcases hs : sceneAt scenes (findScene scenes (t / 1000)).1 with _ | scene
      · rw [hs] at h
        simp at h
      · rw [hs] at h
        simp only [FrameResult.drawn.injEq] at h
        rw [← h]
        rfl
  · intro total htotal
    constructor
    · intro hall
      by_contra hne
      rcases lt_or_gt_of_ne hne with hlt | hgt
      · have h0 : (0:ℚ) ≤ 59 * total / 60 := div_nonneg (by nlinarith) (by norm_num)
        have h1 : 59 * total / 60 ≤ total := by nlinarith
        have hkey := hall (59 * total / 60) h0 h1
        have hdiv : 59 * total / 60 / total = 59 / 60 := by
          field_simp
          ring
        rw [hdiv] at hkey
        have hcl : clamp ((59:ℚ) / 60) 0 1 = 59 / 60 := by
          unfold clamp
          rw [max_eq_left (by norm_num), min_eq_left (by norm_num)]
        rw [hcl] at hkey
        have hL : round ((59:ℚ) / 60 * 30) = 30 := by
          norm_num [round_eq]
        have hR : round (59 * total / 60) < 30 := by
          rw [round_eq]
          refine Int.floor_lt.mpr ?_
          push_cast
          nlinarith
        rw [hkey] at hL
        omega
      · have h0 : (0:ℚ) ≤ 59 / 2 := by norm_num
        have h1 : (59:ℚ) / 2 ≤ total := by linarith
        have hkey := hall (59 / 2) h0 h1
        have hcl : clamp ((59:ℚ) / 2 / total) 0 1 = 59 / 2 / total := by
          unfold clamp
          rw [max_eq_left (div_nonneg (by norm_num) (le_of_lt htotal)),
            min_eq_left ((div_le_one htotal).mpr h1)]
        rw [hcl] at hkey
        have hR : round ((59:ℚ) / 2) = 30 := by norm_num [round_eq]
        have hL : round ((59:ℚ) / 2 / total * 30) < 30 := by
          rw [round_eq]
          refine Int.floor_lt.mpr ?_
          have hlt2 : (59:ℚ) / 2 / total * 30 < 59 / 2 := by
            rw [div_mul_eq_mul_div, div_lt_iff₀ htotal]
            nlinarith
          push_cast
          linarith
        rw [hkey, hR] at hL
        exact absurd hL (lt_irrefl 30)
    · intro h30
      subst h30
      intro s h0 hle
      have hcl : clamp (s / 30) 0 1 = s / 30 := by
        unfold clamp
        rw [max_eq_left (div_nonneg h0 (by norm_num)),
          min_eq_left ((div_le_one (by norm_num)).mpr hle)]
      rw [hcl, div_mul_cancel₀ s (by norm_num : (30:ℚ) ≠ 0)]

/-- Witness for C10: at total duration 30 the readout matches true elapsed
seconds (the iff instantiated at 30), and the concrete frame drawn at
15000 ms carries readout 15 = round(0.5 * 30). -/
theorem seconds_readout_witness :
    ((∀ s : ℚ, 0 ≤ s → s ≤ 30 →
        round (clamp (s / 30) 0 1 * 30) = round s) ↔ (30:ℚ) = 30) ∧
    (drawFrame SCENES 30 15000).result =
      FrameResult.drawn ⟨2, 3, 1/2, 103/100, 1, 15⟩ ∧
    (⟨2, 3, 1/2, 103/100, 1, 15⟩ : DrawnFrame).secondsReadout =
      round ((drawFrame SCENES 30 15000).notifiedProgress * 30) := by
  have e1 : (15000:ℚ) / 1000 = 15 := by norm_num
  have hfs : findScene SCENES 15 = (2, 12) := by
    norm_num [findScene, findSceneAux, SCENES]
  have hsa : sceneAt SCENES 2 = some
      ⟨"Dubai Creek Heritage",
       "Sail past souks and wind towers where tradition meets modern flair.",
       "Glide along the creek on an abra as spices and perfumes fill the evening air.",
       "/assets/dubai-creek.jpg", 12, 6⟩ := rfl
  have hdf : (drawFrame SCENES 30 15000).result =
      FrameResult.drawn ⟨2, 3, 1/2, 103/100, 1, 15⟩ := by
    simp only [drawFrame]
    rw [if_neg (by norm_num : ¬ ((30:ℚ) * 1000 ≤ 15000)), e1, hfs]
    simp only [hsa]
    norm_num [clamp, zoomOf, easeInOutCubic, textOpacity, fadeWindowOf,
      secondsReadout, round_eq, min_def, max_def]
  exact ⟨seconds_readout_literal_thirty.2 30 (by norm_num),
    hdf, seconds_readout_literal_thirty.1 SCENES 30 15000 _ hdf⟩
